import Mathlib

set_option maxRecDepth 8000

/-!
Verification development for scripts/process_ipad_screenshot.py.

The script performs one transform on a single in-memory image: decode,
rotate 90 degrees counter-clockwise with bounding-box expansion, crop by
fixed top/bottom margins, optionally normalize the color model, and encode
to PNG or JPEG chosen from the output extension.  The imaging library
(Pillow) is external to the repository and is modelled here as a capability:
an image is its pixel dimensions plus its color-mode string (pixel contents
are irrelevant to every property below), and the encoder is deterministic,
so the bytes it writes are a function of the recorded save call.
-/

/-- Exceptions that a run can surface: decode failure (UnidentifiedImageError),
ValueError (degenerate crop box, malformed int()), the encoder refusing a
color mode ("cannot write mode ... as JPEG"), and the encoder refusing a
zero-sized image. -/
inductive PyErr where
  | unidentifiedImage
  | valueError
  | cannotWriteMode
  | zeroSizeImage
  deriving DecidableEq, Repr

/-- An in-memory PIL image: pixel dimensions plus the color-mode string. -/
structure PILImage where
  width : Nat
  height : Nat
  mode : String
  deriving DecidableEq, Repr

/-- PIL: img.size is the (width, height) pair. -/
def PILImage.size (img : PILImage) : Nat × Nat :=
  (img.width, img.height)

/-- img.rotate(90, expand=True), line 58: an exact quarter turn with
bounding-box expansion swaps the two dimensions and keeps the color mode
(Pillow special-cases angle 90 with expand to a lossless transpose). -/
def PILImage.rotate90expand (img : PILImage) : PILImage :=
  ⟨img.height, img.width, img.mode⟩

/-- img.crop((left, upper, right, lower)), line 63: Pillow raises ValueError
when right < left or lower < upper; otherwise the result has size
(right - left, lower - upper) — regions outside the source are padded —
and the same mode. -/
def PILImage.crop (img : PILImage) (box : Int × Int × Int × Int) : Except PyErr PILImage :=
  match box with
  | (l, u, r, lo) =>
    if r < l then .error .valueError
    else if lo < u then .error .valueError
    else .ok ⟨(r - l).toNat, (lo - u).toNat, img.mode⟩

/-- img.convert(m), line 69: same dimensions, new color mode. -/
def PILImage.convert (img : PILImage) (m : String) : PILImage :=
  ⟨img.width, img.height, m⟩

/-- PIL color modes whose band list contains an alpha band. -/
def hasAlphaChannel (m : String) : Bool :=
  m == "RGBA" || m == "RGBa" || m == "LA" || m == "La" || m == "PA"

/-- Split a character list at every slash (the separator pathlib uses). -/
def splitOnSlash : List Char → List (List Char)
  | [] => [[]]
  | c :: rest =>
    match splitOnSlash rest with
    | [] => [[]]
    | hd :: tl => if c = '/' then [] :: hd :: tl else (c :: hd) :: tl

/-- pathlib PurePath(p).name: the final path component, with empty and
single-dot components dropped (pathlib normalizes those away). -/
def pathlibName (p : String) : List Char :=
  ((splitOnSlash p.toList).filter (fun comp => comp != [] && comp != ['.'])).getLastD []

/-- Index of the last dot in a name (Python str.rfind). -/
def rfindDot : List Char → Option Nat
  | [] => none
  | c :: rest =>
    match rfindDot rest with
    | some i => some (i + 1)
    | none => if c = '.' then some 0 else none

/-- pathlib PurePath(p).suffix: the trailing extension of the final
component; nonempty exactly when the last dot sits strictly inside the
name (so dotfiles and names ending in a dot have no suffix). -/
def pathlibSuffix (p : String) : List Char :=
  let name := pathlibName p
  match rfindDot name with
  | some i => if 0 < i ∧ i + 1 < name.length then name.drop i else []
  | none => []

/-- Line 66: output.suffix.lower() in [".jpg", ".jpeg"].  Char.toLower
lowers exactly the ASCII letters, which decides membership in these two
ASCII extensions. -/
def lossyExt (output_path : String) : Bool :=
  let s := (pathlibSuffix output_path).map Char.toLower
  s == ".jpg".toList || s == ".jpeg".toList

/-- One call to Image.save, recorded symbolically.  The encoder is
deterministic, so the bytes written at the output path are a function of
exactly this record. -/
inductive SaveCall where
  | jpeg (img : PILImage) (quality : Int) (optimize : Bool)
  | png (img : PILImage) (optimize : Bool)
  deriving DecidableEq, Repr

/-- The image a save call encodes. -/
def SaveCall.img : SaveCall → PILImage
  | .jpeg i _ _ => i
  | .png i _ => i

/-- Whether a save call uses the lossy (JPEG) encoder. -/
def SaveCall.isLossy : SaveCall → Bool
  | .jpeg _ _ _ => true
  | .png _ _ => false

/-- Raw modes Pillow's JPEG encoder accepts; any other mode raises
OSError("cannot write mode ... as JPEG").  In particular no alpha-carrying
mode is accepted. -/
def JPEG_RAWMODES : List String := ["1", "L", "RGB", "RGBX", "CMYK", "YCbCr"]

/-- Output modes Pillow's PNG encoder accepts. -/
def PNG_OUTMODES : List String := ["1", "L", "LA", "I", "I;16", "P", "RGB", "RGBA"]

/-- The mode table of the codec a save call targets. -/
def codecModes : SaveCall → List String
  | .jpeg _ _ _ => JPEG_RAWMODES
  | .png _ _ => PNG_OUTMODES

/-- The encode capability behind cropped.save (lines 70, 73): it rejects a
color mode outside the target codec's table, rejects zero-sized images
(the tile setup fails), and otherwise succeeds, the written bytes being
determined by the call. -/
def doSave (call : SaveCall) : Except PyErr SaveCall :=
  if (codecModes call).contains call.img.mode then
    if call.img.width = 0 ∨ call.img.height = 0 then .error .zeroSizeImage
    else .ok call
  else .error .cannotWriteMode

/-- Lines 67–69: for JPEG output the image is converted to RGB when its mode
is exactly the string "RGBA"; any other mode is left untouched. -/
def jpegPreEncode (cropped : PILImage) : PILImage :=
  if cropped.mode == "RGBA" then cropped.convert "RGB" else cropped

/-- Lines 66–73: pick the encoder from the output extension and assemble the
save call.  quality reaches only the JPEG call; both calls set optimize. -/
def saveArgs (cropped : PILImage) (output_path : String) (quality : Int) : SaveCall :=
  if lossyExt output_path then .jpeg (jpegPreEncode cropped) quality true
  else .png cropped true

/-- iPad Pro 13" crop values at 2x scale (module constants, lines 30–31). -/
def CROP_TOP : Int := 130

/-- Home indicator margin (module constant, line 31). -/
def CROP_BOTTOM : Int := 42

/-- process_screenshot, lines 34–75.  input stands for the decode outcome of
Image.open(input_path); on success the value carries the returned
cropped.size pair together with the save call whose bytes were written.
Python exceptions propagate, which the error-forwarding matches mirror. -/
def process_screenshot (input : Except PyErr PILImage) (output_path : String)
    (quality : Int) (crop_top : Int) (crop_bottom : Int) :
    Except PyErr ((Nat × Nat) × SaveCall) :=
  match input with
  | .error e => .error e
  | .ok img =>
    let img_rotated := img.rotate90expand
    let width := img_rotated.width
    let height := img_rotated.height
    match img_rotated.crop (0, crop_top, (width : Int), (height : Int) - crop_bottom) with
    | .error e => .error e
    | .ok cropped =>
      match doSave (saveArgs cropped output_path quality) with
      | .error e => .error e
      | .ok saved => .ok (saved.img.size, saved)

/-- Decimal digit as a character. -/
def digitChar (d : Nat) : Char := Char.ofNat (48 + d)

/-- Decimal digits of n, fuel-driven so the kernel can evaluate it. -/
def natDigits : Nat → Nat → List Char
  | _, 0 => []
  | n, fuel + 1 =>
    if n < 10 then [digitChar n] else natDigits (n / 10) fuel ++ [digitChar (n % 10)]

/-- Decimal rendering of a Nat, as Python str renders widths and heights. -/
def natRepr (n : Nat) : String :=
  ⟨natDigits n (n + 1)⟩

/-- Accumulator pass over decimal digits. -/
def natOfDigitsAux : List Char → Nat → Option Nat
  | [], acc => some acc
  | c :: rest, acc =>
    if c.isDigit then natOfDigitsAux rest (10 * acc + (c.toNat - 48)) else none

/-- Value of a nonempty all-digit character list. -/
def natOfDigits : List Char → Option Nat
  | [] => none
  | l => natOfDigitsAux l 0

/-- Python int(s) on canonical integer literals: an optional sign followed by
decimal digits; anything else raises ValueError (none). -/
def pyInt (s : String) : Option Int :=
  match s.toList with
  | [] => none
  | '-' :: rest => (natOfDigits rest).map (fun n => -(n : Int))
  | '+' :: rest => (natOfDigits rest).map (fun n => (n : Int))
  | l => (natOfDigits l).map (fun n => (n : Int))

/-- One iteration of the loop at lines 86–89: when the current token is the
literal "--quality" and a following token exists, quality is rebound to
int() of that token; int() failure aborts the run (the error absorbs). -/
def parseQualityStep (argv : List String) (acc : Except PyErr Int) (p : Nat × String) :
    Except PyErr Int :=
  match acc with
  | .error e => .error e
  | .ok q =>
    if p.2 = "--quality" ∧ p.1 + 1 < argv.length then
      match pyInt ((argv.drop (p.1 + 1)).headD "") with
      | some n => .ok n
      | none => .error .valueError
    else .ok q

/-- Lines 85–89: quality = 90, then for i, arg in enumerate(sys.argv). -/
def parseQuality (argv : List String) : Except PyErr Int :=
  (argv.enum).foldl (parseQualityStep argv) (.ok 90)

/-- Observable outcome of one run of main: exit status, stdout lines, and
the file written (its path plus the save call that produced its bytes).
An uncaught exception terminates the interpreter with status 1, printing
only a traceback to stderr, so stdout stays empty and nothing is written. -/
structure MainOutcome where
  exitCode : Nat
  printed : List String
  written : Option (String × SaveCall)
  deriving DecidableEq, Repr

/-- The module docstring, printed as the usage text on line 80. -/
def USAGE_DOC : String :=
  "\niPad Screenshot Processor for swift-ui-prototyper plugin.\n\nProcesses raw iPad simulator screenshots:\n1. Rotates from portrait framebuffer to landscape\n2. Crops status bar, camera housing, and home indicator\n3. Saves as optimized PNG and JPEG\n\nUsage:\n    python process_ipad_screenshot.py <input.png> <output.jpg> [--quality 90]\n\n    Or import as module:\n    from process_ipad_screenshot import process_screenshot\n    process_screenshot(\x27/tmp/raw.png\x27, \x27/tmp/clean.jpg\x27)\n"

/-- main, lines 78–97 (named script_main here because Lean reserves main).  argv is the full sys.argv (program name first); fs
maps a path to none when it does not exist and to the decode outcome of
Image.open otherwise. -/
def script_main (argv : List String) (fs : String → Option (Except PyErr PILImage)) : MainOutcome :=
  if argv.length < 3 then ⟨1, [USAGE_DOC], none⟩
  else
    let input_path := argv.getD 1 ""
    let output_path := argv.getD 2 ""
    match parseQuality argv with
    | .error _ => ⟨1, [], none⟩
    | .ok quality =>
      match fs input_path with
      | none => ⟨1, ["Error: Input file not found: " ++ input_path], none⟩
      | some decoded =>
        match process_screenshot decoded output_path quality CROP_TOP CROP_BOTTOM with
        | .error _ => ⟨1, [], none⟩
        | .ok (size, saved) =>
          ⟨0, ["Processed: " ++ natRepr size.1 ++ "x" ++ natRepr size.2 ++ " -> " ++ output_path],
            some (output_path, saved)⟩

/-! ### Helper lemmas -/

/-- Inverting a successful save: the call is returned unchanged and its
codec accepted the image's mode. -/
theorem doSave_ok_inv (c s : SaveCall) (h : doSave c = .ok s) :
    s = c ∧ (codecModes c).contains c.img.mode = true := by
  unfold doSave at h
  by_cases hm : (codecModes c).contains c.img.mode = true
  · rw [if_pos hm] at h
    by_cases hz : c.img.width = 0 ∨ c.img.height = 0
    · rw [if_pos hz] at h; cases h
    · rw [if_neg hz] at h
      cases h; exact ⟨rfl, hm⟩
  · rw [if_neg hm] at h; cases h

/-- saveArgs picks the encoder exactly by the extension test. -/
theorem saveArgs_isLossy (i : PILImage) (output_path : String) (q : Int) :
    (saveArgs i output_path q).isLossy = lossyExt output_path := by
  unfold saveArgs
  by_cases h : lossyExt output_path = true
  · rw [if_pos h, h]; rfl
  · rw [if_neg h]
    rw [Bool.not_eq_true] at h
    rw [h]; rfl

/-- The RGBA-to-RGB normalization never changes pixel dimensions. -/
theorem jpegPreEncode_size (i : PILImage) : (jpegPreEncode i).size = i.size := by
  unfold jpegPreEncode
  by_cases h : (i.mode == "RGBA") = true
  · rw [if_pos h]; rfl
  · rw [if_neg h]

/-- The image inside the assembled save call has the cropped image's size. -/
theorem saveArgs_img_size (i : PILImage) (output_path : String) (q : Int) :
    (saveArgs i output_path q).img.size = i.size := by
  unfold saveArgs
  by_cases h : lossyExt output_path = true
  · rw [if_pos h]; exact jpegPreEncode_size i
  · rw [if_neg h]; rfl

/-- Inverting a successful run of process_screenshot. -/
theorem process_ok_inv (input : Except PyErr PILImage) (output_path : String)
    (q t b : Int) (sz : Nat × Nat) (saved : SaveCall)
    (h : process_screenshot input output_path q t b = .ok (sz, saved)) :
    ∃ img cropped,
      input = .ok img ∧
      img.rotate90expand.crop
        (0, t, (img.rotate90expand.width : Int), (img.rotate90expand.height : Int) - b) =
        .ok cropped ∧
      saved = saveArgs cropped output_path q ∧
      (codecModes saved).contains saved.img.mode = true ∧
      sz = saved.img.size := by
  cases input with
  | error e => exact absurd h (by simp [process_screenshot])
  | ok img =>
    simp only [process_screenshot] at h
    rcases hcrop : img.rotate90expand.crop
        (0, t, (img.rotate90expand.width : Int), (img.rotate90expand.height : Int) - b)
      with e | cropped
    · simp only [hcrop] at h
      exact Except.noConfusion h
    · simp only [hcrop] at h
      rcases hsave : doSave (saveArgs cropped output_path q) with e | saved1
      · simp only [hsave] at h
        exact Except.noConfusion h
      · simp only [hsave] at h
        injection h with h2
        injection h2 with ha hb
        subst hb
        rcases doSave_ok_inv _ _ hsave with ⟨hs1, hmode⟩
        subst hs1
        exact ⟨img, cropped, rfl, hcrop, rfl, hmode, ha.symm⟩

/-- No mode in the JPEG encoder's table carries an alpha band. -/
theorem jpeg_modes_no_alpha (m : String) (h : JPEG_RAWMODES.contains m = true) :
    hasAlphaChannel m = false := by
  have hm : m ∈ JPEG_RAWMODES := by
    simpa using h
  simp only [JPEG_RAWMODES, List.mem_cons, List.not_mem_nil, or_false] at hm
  rcases hm with rfl | rfl | rfl | rfl | rfl | rfl <;> rfl

/-- Evaluation form of the crop primitive on an explicit box. -/
theorem crop_eval (img : PILImage) (l u r lo : Int) :
    img.crop (l, u, r, lo) =
      if r < l then .error .valueError
      else if lo < u then .error .valueError
      else .ok ⟨(r - l).toNat, (lo - u).toNat, img.mode⟩ := rfl

/-- A save call on a zero-height image never succeeds. -/
theorem doSave_zero_height (c : SaveCall) (h : c.img.height = 0) :
    doSave c = .error .zeroSizeImage ∨ doSave c = .error .cannotWriteMode := by
  unfold doSave
  by_cases hm : (codecModes c).contains c.img.mode = true
  · rw [if_pos hm, if_pos (Or.inr h)]; exact Or.inl rfl
  · rw [if_neg hm]; exact Or.inr rfl

/-! ### Claims -/

/-- Claim C6: when the decode step fails, process_screenshot propagates that
failure unchanged as its fatal result.  In this model a save call — and hence
a write at the output path — exists only inside a successful result, so every
failure in decode, rotate, or crop happens before any output is produced. -/
theorem claim_C6_decode_error_propagates (e : PyErr) (output_path : String) (q t b : Int) :
    process_screenshot (.error e) output_path q t b = .error e := rfl

/-- Claim C5: with a lossless-extension output path, two runs that differ only
in the quality argument produce identical results; the quality value never
reaches the PNG save call, so the encoded bytes coincide. -/
theorem claim_C5_lossless_ignores_quality (input : Except PyErr PILImage)
    (output_path : String) (t b q1 q2 : Int) (h : lossyExt output_path = false) :
    process_screenshot input output_path q1 t b = process_screenshot input output_path q2 t b := by
  cases input with
  | error e => rfl
  | ok img =>
    simp only [process_screenshot]
    rcases hcrop : img.rotate90expand.crop
        (0, t, (img.rotate90expand.width : Int), (img.rotate90expand.height : Int) - b)
      with e | cropped
    · simp only [hcrop]
    · simp only [hcrop, saveArgs, h, Bool.false_eq_true, if_false]

/-- Claim C5 witness: a lossless run at quality 10 and quality 95. -/
theorem claim_C5_witness :
    process_screenshot (.ok ⟨3, 4, "RGB"⟩) "clean.png" 10 0 0 =
      process_screenshot (.ok ⟨3, 4, "RGB"⟩) "clean.png" 95 0 0 :=
  claim_C5_lossless_ignores_quality (.ok ⟨3, 4, "RGB"⟩) "clean.png" 0 0 10 95 (by rfl)

/-- Claim C2: the output format is selected solely from the output path's
trailing extension, matched case-insensitively — the save call is lossy
exactly when the lowercased suffix is ".jpg" or ".jpeg", independently of the
image (in particular of the input's format), every other extension (e.g. the
uppercase ".PNG") giving the lossless encoder; a successful end-to-end run
writes with the lossy encoder exactly under the same extension test. -/
theorem claim_C2_format_from_extension (img : PILImage) (output_path : String) (q : Int) :
    ((saveArgs img output_path q).isLossy = true ↔
      ((pathlibSuffix output_path).map Char.toLower = ".jpg".toList ∨
       (pathlibSuffix output_path).map Char.toLower = ".jpeg".toList)) ∧
    (∀ (img2 : PILImage) (q2 : Int),
      (saveArgs img output_path q).isLossy = (saveArgs img2 output_path q2).isLossy) ∧
    (∀ (img3 : PILImage) (q3 : Int), (saveArgs img3 "shot.PNG" q3).isLossy = false) ∧
    (∀ (input : Except PyErr PILImage) (t b : Int) (sz : Nat × Nat) (saved : SaveCall),
      process_screenshot input output_path q t b = .ok (sz, saved) →
      (saved.isLossy = true ↔ lossyExt output_path = true)) := by
  refine ⟨?_, ?_, ?_, ?_⟩
  · rw [saveArgs_isLossy]
    unfold lossyExt
    simp [Bool.or_eq_true, beq_iff_eq]
  · intro img2 q2
    rw [saveArgs_isLossy, saveArgs_isLossy]
  · intro img3 q3
    rw [saveArgs_isLossy]
    rfl
  · intro input t b sz saved h
    rcases process_ok_inv input output_path q t b sz saved h with
      ⟨img1, cropped, _, _, hsaved, _, _⟩
    subst hsaved
    rw [saveArgs_isLossy]

/-- Claim C2 witness: a mixed-case lossy extension and the uppercase ".PNG". -/
theorem claim_C2_witness :
    (saveArgs ⟨7, 9, "RGB"⟩ "pic.JpG" 70).isLossy = true ∧
    (saveArgs ⟨7, 9, "RGBA"⟩ "shot.PNG" 70).isLossy = false := by
  constructor
  · exact (claim_C2_format_from_extension ⟨7, 9, "RGB"⟩ "pic.JpG" 70).1.mpr (Or.inl (by rfl))
  · exact (claim_C2_format_from_extension ⟨7, 9, "RGB"⟩ "x" 70).2.2.1 ⟨7, 9, "RGBA"⟩ 70

/-- Claim C10: the pre-encode conversion happens only when the cropped mode is
exactly the string "RGBA"; an image carrying alpha in any other mode (such as
"LA") is handed to the lossy encoder unconverted. -/
theorem claim_C10_convert_only_rgba (img : PILImage) (output_path : String) (q : Int)
    (halpha : hasAlphaChannel img.mode = true) (hne : img.mode ≠ "RGBA")
    (hlossy : lossyExt output_path = true) :
    saveArgs img output_path q = .jpeg img q true := by
  unfold saveArgs jpegPreEncode
  rw [if_pos hlossy, if_neg (by simpa using hne)]

/-- Claim C10 witness: an "LA"-mode image reaches the JPEG call unconverted. -/
theorem claim_C10_witness :
    saveArgs ⟨12, 34, "LA"⟩ "frame.jpeg" 80 = .jpeg ⟨12, 34, "LA"⟩ 80 true :=
  claim_C10_convert_only_rgba ⟨12, 34, "LA"⟩ "frame.jpeg" 80 (by rfl) (by decide) (by rfl)

/-- Claim C3 counterexample: with a lossy output path and a cropped image of
mode "LA" — which carries an alpha band but is not the string "RGBA" — the
image assembled for the JPEG encoder still carries alpha (no conversion
happened), and the run aborts with the encoder's mode error instead of
encoding a converted image, contradicting the claim that any alpha-carrying
cropped image is converted to an alpha-less model before lossy encoding. -/
theorem claim_C3_counterexample :
    lossyExt "photo.jpg" = true ∧
    hasAlphaChannel ((saveArgs ⟨240, 320, "LA"⟩ "photo.jpg" 90).img.mode) = true ∧
    process_screenshot (.ok ⟨320, 240, "LA"⟩) "photo.jpg" 90 0 0 =
      .error .cannotWriteMode :=
  ⟨rfl, rfl, rfl⟩

/-- Claim C3 (amended): the conversion to an alpha-less model is applied only
when the cropped mode is exactly "RGBA" (and then yields "RGB"); other
alpha-carrying modes reach the lossy encoder unconverted and are rejected by
it, so a lossy save that succeeds never encodes an alpha channel. -/
theorem claim_C3_lossy_never_alpha (input : Except PyErr PILImage) (output_path : String)
    (q t b : Int) (sz : Nat × Nat) (saved : SaveCall)
    (hrun : process_screenshot input output_path q t b = .ok (sz, saved))
    (hlossy : saved.isLossy = true) :
    hasAlphaChannel saved.img.mode = false ∧
    (∀ w h : Nat, jpegPreEncode ⟨w, h, "RGBA"⟩ = ⟨w, h, "RGB"⟩) := by
  constructor
  · rcases process_ok_inv input output_path q t b sz saved hrun with
      ⟨img1, cropped, _, _, hsaved, hmode, _⟩
    cases hcall : saved with
    | jpeg i qq opt =>
      rw [hcall] at hmode
      exact jpeg_modes_no_alpha _ (by simpa [codecModes, SaveCall.img] using hmode)
    | png i opt =>
      rw [hcall] at hlossy
      exact absurd hlossy (by simp [SaveCall.isLossy])
  · intro w h
    rfl

/-- Claim C3 witness: an RGBA input written to a .jpg path is converted to RGB
and the encoded image carries no alpha. -/
theorem claim_C3_witness :
    hasAlphaChannel (SaveCall.jpeg ⟨6, 8, "RGB"⟩ 75 true).img.mode = false ∧
    (∀ w h : Nat, jpegPreEncode ⟨w, h, "RGBA"⟩ = ⟨w, h, "RGB"⟩) :=
  claim_C3_lossy_never_alpha (.ok ⟨8, 6, "RGBA"⟩) "w.jpg" 75 0 0 (6, 8)
    (SaveCall.jpeg ⟨6, 8, "RGB"⟩ 75 true) (by rfl) (by rfl)

/-- Claim C1 counterexample: ⟨640, 480⟩ is a decodable image size (a
grayscale-plus-alpha PNG decodes to mode "LA"), the margins 0, 0 satisfy
t + b < W, and the claim asserts the call returns (480, 640); with a .jpg
output path the run instead aborts in the encoder, because mode "LA" is not
converted and the JPEG codec rejects it, so nothing is returned at all. -/
theorem claim_C1_counterexample :
    process_screenshot (.ok ⟨640, 480, "LA"⟩) "shot.jpg" 90 0 0 =
      .error .cannotWriteMode :=
  rfl

/-- Claim C1 (amended): for a decodable image of size (W, H) and non-negative
margins with t + b < W, rotation yields intermediate size (H, W) and the crop
yields exactly size (H, W - t - b); whenever process_screenshot returns at
all it returns exactly that pair, the encoded image having the same
dimensions (encode never changes them); and whenever the selected encoder
accepts the cropped image's color mode the call does return that pair. -/
theorem claim_C1_dimensions (W H : Nat) (m output_path : String) (q t b : Int)
    (hH : 0 < H) (ht : 0 ≤ t) (hb : 0 ≤ b) (htb : t + b < (W : Int)) :
    (PILImage.rotate90expand ⟨W, H, m⟩).size = (H, W) ∧
    (PILImage.rotate90expand ⟨W, H, m⟩).crop (0, t, (H : Int), (W : Int) - b) =
      .ok ⟨H, ((W : Int) - t - b).toNat, m⟩ ∧
    (∀ (sz : Nat × Nat) (saved : SaveCall),
      process_screenshot (.ok ⟨W, H, m⟩) output_path q t b = .ok (sz, saved) →
      sz = (H, ((W : Int) - t - b).toNat) ∧ saved.img.size = sz) ∧
    (doSave (saveArgs ⟨H, ((W : Int) - t - b).toNat, m⟩ output_path q) =
        .ok (saveArgs ⟨H, ((W : Int) - t - b).toNat, m⟩ output_path q) →
      process_screenshot (.ok ⟨W, H, m⟩) output_path q t b =
        .ok ((H, ((W : Int) - t - b).toNat),
          saveArgs ⟨H, ((W : Int) - t - b).toNat, m⟩ output_path q)) := by
  have hcrop : PILImage.crop ⟨H, W, m⟩ (0, t, (H : Int), (W : Int) - b) =
      .ok ⟨H, ((W : Int) - t - b).toNat, m⟩ := by
    rw [crop_eval, if_neg (by omega), if_neg (by omega)]
    have h1 : ((H : Int) - 0).toNat = H := by omega
    have h2 : (((W : Int) - b) - t).toNat = ((W : Int) - t - b).toNat := by omega
    rw [h1, h2]
  refine ⟨rfl, hcrop, ?_, ?_⟩
  · intro sz saved h
    rcases process_ok_inv _ output_path q t b sz saved h with
      ⟨img1, cropped, hok, hc, hsaved, _, hsz⟩
    injection hok with hok1
    subst hok1
    simp only [PILImage.rotate90expand] at hc hcrop
    rw [hcrop] at hc
    injection hc with hc1
    subst hc1
    subst hsaved
    have hs := saveArgs_img_size ⟨H, ((W : Int) - t - b).toNat, m⟩ output_path q
    constructor
    · rw [hsz, hs]; rfl
    · rw [hsz]
  · intro hacc
    simp only [process_screenshot, PILImage.rotate90expand] at *
    simp only [hcrop, hacc]
    have hs := saveArgs_img_size ⟨H, ((W : Int) - t - b).toNat, m⟩ output_path q
    rw [hs]
    rfl

/-- Claim C1 witness: a 2048x2732 RGB portrait screenshot with the default
margins written to a lossless path comes back as (2732, 1876). -/
theorem claim_C1_witness :
    process_screenshot (.ok ⟨2048, 2732, "RGB"⟩) "clean/out.png" 90 130 42 =
      .ok ((2732, 1876), SaveCall.png ⟨2732, 1876, "RGB"⟩ true) := by
  have h := (claim_C1_dimensions 2048 2732 "RGB" "clean/out.png" 90 130 42
    (by decide) (by decide) (by decide) (by decide)).2.2.2 (by rfl)
  exact h

/-- Claim C4: when the margins consume the whole rotated height
(crop_top + crop_bottom ≥ W), process_screenshot contains no guard of its
own; the run aborts with an error raised inside an imaging primitive — the
crop's ValueError for a negative-height box, or the encoder's refusal of a
zero-sized image or of the color mode — and, the result being an error, no
output image is written. -/
theorem claim_C4_degenerate_crop_fails (W H : Nat) (m output_path : String) (q t b : Int)
    (hdeg : (W : Int) ≤ t + b) :
    ∃ e, process_screenshot (.ok ⟨W, H, m⟩) output_path q t b = .error e ∧
      (e = PyErr.valueError ∨ e = PyErr.zeroSizeImage ∨ e = PyErr.cannotWriteMode) := by
  simp only [process_screenshot, PILImage.rotate90expand]
  by_cases hlt : (W : Int) - b < t
  · have hcrop : PILImage.crop ⟨H, W, m⟩ (0, t, (H : Int), (W : Int) - b) =
        .error .valueError := by
      rw [crop_eval, if_neg (by omega), if_pos hlt]
    simp only [hcrop]
    exact ⟨.valueError, rfl, Or.inl rfl⟩
  · have hcrop : PILImage.crop ⟨H, W, m⟩ (0, t, (H : Int), (W : Int) - b) =
        .ok ⟨H, 0, m⟩ := by
      rw [crop_eval, if_neg (by omega), if_neg (by omega)]
      have h1 : ((H : Int) - 0).toNat = H := by omega
      have h2 : (((W : Int) - b) - t).toNat = 0 := by omega
      rw [h1, h2]
    simp only [hcrop]
    have hz : (saveArgs ⟨H, 0, m⟩ output_path q).img.height = 0 :=
      congrArg Prod.snd (saveArgs_img_size ⟨H, 0, m⟩ output_path q)
    rcases doSave_zero_height (saveArgs ⟨H, 0, m⟩ output_path q) hz with hs | hs
    · simp only [hs]
      exact ⟨.zeroSizeImage, rfl, Or.inr (Or.inl rfl)⟩
    · simp only [hs]
      exact ⟨.cannotWriteMode, rfl, Or.inr (Or.inr rfl)⟩

/-- Claim C4 witness: margins 60 + 40 meet the rotated height 100; the run
fails inside the encoder on the zero-height crop and writes nothing. -/
theorem claim_C4_witness :
    ∃ e, process_screenshot (.ok ⟨100, 50, "RGB"⟩) "flat.png" 90 60 40 = .error e ∧
      (e = PyErr.valueError ∨ e = PyErr.zeroSizeImage ∨ e = PyErr.cannotWriteMode) :=
  claim_C4_degenerate_crop_fails 100 50 "RGB" "flat.png" 90 60 40 (by decide)

/-- Members of an enumerated list carry members of the list. -/
theorem snd_mem_of_mem_enumFrom {α : Type} (p : Nat × α) :
    ∀ (l : List α) (n : Nat), p ∈ l.enumFrom n → p.2 ∈ l := by
  intro l
  induction l with
  | nil => intro n h; exact absurd h (by simp [List.enumFrom])
  | cons a as ih =>
    intro n h
    rcases List.mem_cons.mp h with h1 | h1
    · subst h1; exact List.mem_cons_self a as
    · exact List.mem_cons_of_mem a (ih (n + 1) h1)

/-- The quality loop leaves the accumulator untouched across tokens that are
not the literal "--quality". -/
theorem foldl_quality_const (argv : List String) (q : Int) :
    ∀ (L : List (Nat × String)), (∀ p ∈ L, p.2 ≠ "--quality") →
      L.foldl (parseQualityStep argv) (.ok q) = .ok q := by
  intro L
  induction L with
  | nil => intro _; rfl
  | cons p ps ih =>
    intro h
    have hp : p.2 ≠ "--quality" := h p (List.mem_cons_self p ps)
    have hstep : parseQualityStep argv (.ok q) p = .ok q := by
      simp only [parseQualityStep]
      rw [if_neg (by simp [hp])]
    rw [List.foldl_cons, hstep]
    exact ih (fun x hx => h x (List.mem_cons_of_mem p hx))

/-- Enumeration distributes over append, shifting the start index. -/
theorem enumFrom_append_eq {α : Type} :
    ∀ (l1 l2 : List α) (n : Nat),
      (l1 ++ l2).enumFrom n = l1.enumFrom n ++ l2.enumFrom (n + l1.length) := by
  intro l1
  induction l1 with
  | nil => intro l2 n; simp [List.enumFrom]
  | cons a as ih =>
    intro l2 n
    show (n, a) :: List.enumFrom (n + 1) (as ++ l2) =
      ((n, a) :: List.enumFrom (n + 1) as) ++ List.enumFrom (n + (as.length + 1)) l2
    rw [List.cons_append, ih l2 (n + 1),
      show n + 1 + as.length = n + (as.length + 1) from by omega]

/-- Dropping past a prefix and one more element. -/
theorem drop_append_cons {α : Type} :
    ∀ (A : List α) (x : α) (rest : List α), (A ++ x :: rest).drop (A.length + 1) = rest := by
  intro A
  induction A with
  | nil => intro x rest; rfl
  | cons a as ih =>
    intro x rest
    simp only [List.length_cons, List.cons_append, List.drop_succ_cons]
    exact ih x rest

/-- Claim C9: the quality value used by main is the integer immediately
following the literal token "--quality" (here for a uniquely occurring,
well-formed flag), and when no such token occurs anywhere in sys.argv the
loop leaves the default of 90 in place. -/
theorem claim_C9_quality_flag (argv : List String) :
    ("--quality" ∉ argv → parseQuality argv = .ok 90) ∧
    (∀ (A B : List String) (s : String) (n : Int),
      argv = A ++ "--quality" :: s :: B →
      "--quality" ∉ A → "--quality" ∉ B → s ≠ "--quality" →
      pyInt s = some n →
      parseQuality argv = .ok n) := by
  constructor
  · intro h
    unfold parseQuality List.enum
    exact foldl_quality_const argv 90 _ (fun p hp =>
      fun hcontra => h (hcontra ▸ snd_mem_of_mem_enumFrom p argv 0 hp))
  · intro A B s n hargv hA hB hs hparse
    subst hargv
    unfold parseQuality List.enum
    rw [enumFrom_append_eq, List.foldl_append,
      foldl_quality_const _ 90 _ (fun p hp =>
        fun hcontra => hA (hcontra ▸ snd_mem_of_mem_enumFrom p A 0 hp))]
    simp only [List.enumFrom, Nat.zero_add]
    rw [List.foldl_cons]
    have hlen : (A ++ "--quality" :: s :: B).length = A.length + (B.length + 2) := by
      rw [List.length_append]; rfl
    have hstep : parseQualityStep (A ++ "--quality" :: s :: B) (.ok 90)
        (A.length, "--quality") = .ok n := by
      simp only [parseQualityStep]
      rw [if_pos ⟨trivial, by omega⟩]
      have hdrop : ((A ++ "--quality" :: s :: B).drop (A.length + 1)).headD "" = s := by
        rw [drop_append_cons]; rfl
      rw [hdrop, hparse]
    rw [hstep, List.foldl_cons]
    have hstep2 : parseQualityStep (A ++ "--quality" :: s :: B) (.ok n)
        (A.length + 1, s) = .ok n := by
      simp only [parseQualityStep]
      rw [if_neg (by simp [hs])]
    rw [hstep2]
    exact foldl_quality_const _ n _ (fun p hp =>
      fun hcontra => hB (hcontra ▸ snd_mem_of_mem_enumFrom p B (A.length + 1 + 1) hp))

/-- Claim C9 witness: no flag gives the default 90; "--quality 85" gives 85. -/
theorem claim_C9_witness :
    parseQuality ["prog", "a.png", "b.png"] = .ok 90 ∧
    parseQuality ["prog", "a.png", "b.png", "--quality", "85"] = .ok 85 := by
  constructor
  · exact (claim_C9_quality_flag ["prog", "a.png", "b.png"]).1 (by decide)
  · exact (claim_C9_quality_flag ["prog", "a.png", "b.png", "--quality", "85"]).2
      ["prog", "a.png", "b.png"] [] "85" 85 rfl (by decide) (by decide) (by decide) rfl

/-- Claim C7: with fewer than two positional arguments (sys.argv shorter than
three entries) main prints the usage text — the module docstring — and exits
with status 1, the outcome having no written file and not consulting the
filesystem (it is the same constant for every fs); otherwise, when the
quality token parses, the input decodes and the transform succeeds, main
prints the resulting dimensions and the output path and exits zero. -/
theorem claim_C7_cli_behavior (argv : List String)
    (fs : String → Option (Except PyErr PILImage)) :
    (argv.length < 3 → script_main argv fs = ⟨1, [USAGE_DOC], none⟩) ∧
    (∀ (q : Int) (d : Except PyErr PILImage) (sz : Nat × Nat) (saved : SaveCall),
      3 ≤ argv.length →
      parseQuality argv = .ok q →
      fs (argv.getD 1 "") = some d →
      process_screenshot d (argv.getD 2 "") q CROP_TOP CROP_BOTTOM = .ok (sz, saved) →
      script_main argv fs =
        ⟨0, ["Processed: " ++ natRepr sz.1 ++ "x" ++ natRepr sz.2 ++ " -> " ++ argv.getD 2 ""],
          some (argv.getD 2 "", saved)⟩) := by
  constructor
  · intro h
    unfold script_main
    rw [if_pos h]
  · intro q d sz saved h3 hq hfs hproc
    unfold script_main
    rw [if_neg (by omega)]
    simp only [hq, hfs, hproc]

/-- Claim C7 witness: a three-argument invocation on a decodable RGB input
succeeds, printing the dimensions, and the two-argument invocation prints
the usage text with exit status 1. -/
theorem claim_C7_witness :
    script_main ["prog", "in.png", "out.png"]
        (fun p => if p = "in.png" then some (.ok ⟨2048, 2732, "RGB"⟩) else none) =
      ⟨0, ["Processed: 2732x1876 -> out.png"],
        some ("out.png", SaveCall.png ⟨2732, 1876, "RGB"⟩ true)⟩ ∧
    script_main ["prog"] (fun _ => none) = ⟨1, [USAGE_DOC], none⟩ := by
  constructor
  · exact (claim_C7_cli_behavior ["prog", "in.png", "out.png"] _).2 90
      (.ok ⟨2048, 2732, "RGB"⟩) (2732, 1876) (SaveCall.png ⟨2732, 1876, "RGB"⟩ true)
      (by decide) rfl rfl rfl
  · exact (claim_C7_cli_behavior ["prog"] _).1 (by decide)

/-- Claim C8 counterexample: the input path "missing.png" does not exist,
yet because the quality token "xyz" fails int() before the existence check
runs, the run aborts with exit status 1 and an empty stdout — no printed
message mentions the missing path — refuting the claim for this invocation
(the claim's exit-nonzero and no-write parts still hold). -/
theorem claim_C8_counterexample :
    ((fun (_ : String) => (none : Option (Except PyErr PILImage))) "missing.png" = none) ∧
    script_main ["prog", "missing.png", "out.png", "--quality", "xyz"] (fun _ => none) =
      ⟨1, [], none⟩ :=
  ⟨rfl, rfl⟩

/-- Claim C8 (amended): for an invocation with at least two positional
arguments whose quality token (if any) parses as an integer, a non-existent
input path makes main exit with status 1, print exactly the error line
"Error: Input file not found: " followed by that path — a message mentioning
the path — and write no output file; when the quality token fails to parse,
the run still exits non-zero without writing, but it aborts before the
existence check and prints no message naming the path. -/
theorem claim_C8_missing_input (argv : List String)
    (fs : String → Option (Except PyErr PILImage)) (q : Int)
    (h3 : 3 ≤ argv.length) (hq : parseQuality argv = .ok q)
    (hmiss : fs (argv.getD 1 "") = none) :
    script_main argv fs = ⟨1, ["Error: Input file not found: " ++ argv.getD 1 ""], none⟩ ∧
    (∃ pre, "Error: Input file not found: " ++ argv.getD 1 "" = pre ++ argv.getD 1 "") := by
  constructor
  · unfold script_main
    rw [if_neg (by omega)]
    simp only [hq, hmiss]
  · exact ⟨"Error: Input file not found: ", rfl⟩

/-- Claim C8 witness: a well-formed invocation naming a missing input. -/
theorem claim_C8_witness :
    script_main ["prog", "nope.png", "out.png"] (fun _ => none) =
      ⟨1, ["Error: Input file not found: nope.png"], none⟩ := by
  have h := (claim_C8_missing_input ["prog", "nope.png", "out.png"] (fun _ => none) 90
    (by decide) rfl rfl).1
  exact h
